import Mathlib

/-!
Verification of the SwachhSathi Collector utilities.

Shallow embedding of the TypeScript sources:
  - src/utils/scanner.ts  : parseQRCode, ScanHistoryManager
  - src/utils/api.ts      : LocalStorage / CollectorAPI persistence layer
  - src/utils/location.ts : calculateDistance (haversine)

JavaScript strings are modelled as `List Char`; `JSON.parse` is modelled by
an executable recursive-descent parser over the JSON grammar (`jsonParse`),
with JSON numbers kept as their source literals (no arithmetic is ever done
on them by the code under verification, only a JS truthiness test, which is
computed exactly from the literal).  JS truthiness of a property-access
result is modelled by `truthy : Option Json → Bool`, where `none` stands
for `undefined`.  The browser `localStorage` is modelled as a record with
one field per storage key used by the app.
-/

/-- A parsed JSON value, as produced by `JSON.parse`.  Numbers keep their
source literal; object fields keep source order (JS property access with
duplicate keys resolves to the last one, see `getField`). -/
inductive Json where
  | null : Json
  | bool (b : Bool) : Json
  | num (lit : List Char) : Json
  | str (s : List Char) : Json
  | arr (elems : List Json) : Json
  | obj (fields : List (List Char × Json)) : Json

/-- JSON insignificant whitespace. -/
def isJsonWs (c : Char) : Bool :=
  c == ' ' || c == '\t' || c == '\n' || c == '\r'

/-- Skip insignificant whitespace. -/
def skipWs (cs : List Char) : List Char :=
  cs.dropWhile isJsonWs

/-- Value of a hexadecimal digit (code points 0-9, a-f, A-F). -/
def hexDigitVal (c : Char) : Option Nat :=
  let n := c.toNat
  if 48 ≤ n && n ≤ 57 then some (n - 48)
  else if 97 ≤ n && n ≤ 102 then some (n - 87)
  else if 65 ≤ n && n ≤ 70 then some (n - 55)
  else none

/-- Body of a JSON string after the opening quote: returns the decoded
characters and the input remaining after the closing quote.  Unescaped
control characters are rejected, as in `JSON.parse`. -/
def parseStringBody : Nat → List Char → Option (List Char × List Char)
  | 0, _ => none
  | _, [] => none
  | fuel + 1, c :: rest =>
    if c == '"' then some ([], rest)
    else if c == '\\' then
      match rest with
      | [] => none
      | e :: rest2 =>
        if e == '"' then (parseStringBody fuel rest2).map (fun p => ('"' :: p.1, p.2))
        else if e == '\\' then (parseStringBody fuel rest2).map (fun p => ('\\' :: p.1, p.2))
        else if e == '/' then (parseStringBody fuel rest2).map (fun p => ('/' :: p.1, p.2))
        else if e == 'b' then (parseStringBody fuel rest2).map (fun p => ('\x08' :: p.1, p.2))
        else if e == 'f' then (parseStringBody fuel rest2).map (fun p => ('\x0c' :: p.1, p.2))
        else if e == 'n' then (parseStringBody fuel rest2).map (fun p => ('\n' :: p.1, p.2))
        else if e == 'r' then (parseStringBody fuel rest2).map (fun p => ('\r' :: p.1, p.2))
        else if e == 't' then (parseStringBody fuel rest2).map (fun p => ('\t' :: p.1, p.2))
        else if e == 'u' then
          match rest2 with
          | h1 :: h2 :: h3 :: h4 :: rest3 =>
            match hexDigitVal h1, hexDigitVal h2, hexDigitVal h3, hexDigitVal h4 with
            | some v1, some v2, some v3, some v4 =>
              (parseStringBody fuel rest3).map
                (fun p => (Char.ofNat (v1 * 4096 + v2 * 256 + v3 * 16 + v4) :: p.1, p.2))
            | _, _, _, _ => none
          | _ => none
        else none
    else if c.toNat < 32 then none
    else (parseStringBody fuel rest).map (fun p => (c :: p.1, p.2))

/-- Exponent part of a JSON number literal: `([eE][+-]?[0-9]+)?` appended
to the mantissa `mant`, returning the full literal and the rest. -/
def parseExpPart (mant : List Char) (rest : List Char) : Option (List Char × List Char) :=
  match rest with
  | e :: r3 =>
    if e == 'e' || e == 'E' then
      match r3 with
      | '+' :: r4 =>
        let ds := r4.takeWhile Char.isDigit
        if ds.isEmpty then none
        else some (mant ++ e :: '+' :: ds, r4.dropWhile Char.isDigit)
      | '-' :: r4 =>
        let ds := r4.takeWhile Char.isDigit
        if ds.isEmpty then none
        else some (mant ++ e :: '-' :: ds, r4.dropWhile Char.isDigit)
      | _ =>
        let ds := r3.takeWhile Char.isDigit
        if ds.isEmpty then none
        else some (mant ++ e :: ds, r3.dropWhile Char.isDigit)
    else some (mant, rest)
  | [] => some (mant, [])

/-- Fraction part of a JSON number literal: `(\.[0-9]+)?` appended to the
integer part `ip` (a dot without digits is a syntax error), then the
exponent part. -/
def parseFracPart (ip : List Char) (rest1 : List Char) : Option (List Char × List Char) :=
  match rest1 with
  | '.' :: r2 =>
    let ds := r2.takeWhile Char.isDigit
    if ds.isEmpty then none
    else parseExpPart (ip ++ '.' :: ds) (r2.dropWhile Char.isDigit)
  | _ => parseExpPart ip rest1

/-- Unsigned JSON number literal: integer part `0|[1-9][0-9]*`, then
fraction and exponent. -/
def parseNumBody (cs : List Char) : Option (List Char × List Char) :=
  match cs with
  | [] => none
  | c :: r =>
    if c == '0' then parseFracPart ['0'] r
    else if c.isDigit then
      parseFracPart ((c :: r).takeWhile Char.isDigit) ((c :: r).dropWhile Char.isDigit)
    else none

/-- JSON number literal: `-?(0|[1-9][0-9]*)(\.[0-9]+)?([eE][+-]?[0-9]+)?`.
Returns the consumed literal and the rest of the input. -/
def parseNumber (cs : List Char) : Option (List Char × List Char) :=
  match cs with
  | '-' :: r => (parseNumBody r).map (fun p => ('-' :: p.1, p.2))
  | _ => parseNumBody cs

mutual

/-- JSON value (leading whitespace allowed).  Fuel-indexed recursive
descent; every recursive call strictly consumes input, so fuel equal to
the input length suffices. -/
def parseValue : Nat → List Char → Option (Json × List Char)
  | 0, _ => none
  | fuel + 1, cs =>
    match skipWs cs with
    | [] => none
    | c :: rest =>
      if c == '"' then
        (parseStringBody (fuel + 1) rest).map (fun p => (Json.str p.1, p.2))
      else if c == '{' then
        match skipWs rest with
        | '}' :: rest2 => some (Json.obj [], rest2)
        | _ => (parseMembers fuel rest).map (fun p => (Json.obj p.1, p.2))
      else if c == '[' then
        match skipWs rest with
        | ']' :: rest2 => some (Json.arr [], rest2)
        | _ => (parseElems fuel rest).map (fun p => (Json.arr p.1, p.2))
      else if c == 't' then
        match rest with
        | 'r' :: 'u' :: 'e' :: rest2 => some (Json.bool true, rest2)
        | _ => none
      else if c == 'f' then
        match rest with
        | 'a' :: 'l' :: 's' :: 'e' :: rest2 => some (Json.bool false, rest2)
        | _ => none
      else if c == 'n' then
        match rest with
        | 'u' :: 'l' :: 'l' :: rest2 => some (Json.null, rest2)
        | _ => none
      else if c == '-' || c.isDigit then
        (parseNumber (c :: rest)).map (fun p => (Json.num p.1, p.2))
      else none

/-- Comma-separated object members, consuming the closing brace. -/
def parseMembers : Nat → List Char → Option (List (List Char × Json) × List Char)
  | 0, _ => none
  | fuel + 1, cs =>
    match skipWs cs with
    | '"' :: rest =>
      (parseStringBody (fuel + 1) rest).bind fun (key, rest1) =>
      match skipWs rest1 with
      | ':' :: rest2 =>
        (parseValue fuel rest2).bind fun (v, rest3) =>
        match skipWs rest3 with
        | ',' :: rest4 =>
          (parseMembers fuel rest4).map (fun p => ((key, v) :: p.1, p.2))
        | '}' :: rest4 => some ([(key, v)], rest4)
        | _ => none
      | _ => none
    | _ => none

/-- Comma-separated array elements, consuming the closing bracket. -/
def parseElems : Nat → List Char → Option (List Json × List Char)
  | 0, _ => none
  | fuel + 1, cs =>
    (parseValue fuel cs).bind fun (v, rest) =>
    match skipWs rest with
    | ',' :: rest2 => (parseElems fuel rest2).map (fun p => (v :: p.1, p.2))
    | ']' :: rest2 => some ([v], rest2)
    | _ => none

end

/-- Model of `JSON.parse`: the whole input must be one JSON value,
possibly surrounded by whitespace; `none` models the thrown SyntaxError. -/
def jsonParse (s : List Char) : Option Json :=
  match parseValue (s.length + 1) s with
  | some (j, rest) => if (skipWs rest).isEmpty then some j else none
  | none => none

/-- JS truthiness of the mantissa of a number literal: a JSON number is
(exactly) zero iff every digit of its mantissa is `0`. -/
def numLitIsZero (lit : List Char) : Bool :=
  ((lit.takeWhile (fun c => c != 'e' && c != 'E')).filter Char.isDigit).all (· == '0')

/-- JS truthiness of a property-access result (`none` = `undefined`):
`undefined`, `null`, `false`, `0` and `""` are falsy, everything else
(including any object or array) is truthy. -/
def truthy : Option Json → Bool
  | none => false
  | some Json.null => false
  | some (Json.bool b) => b
  | some (Json.num lit) => !numLitIsZero lit
  | some (Json.str s) => !s.isEmpty
  | some (Json.arr _) => true
  | some (Json.obj _) => true

/-- JS property access `v.key` on a `JSON.parse` result: own property of an
object (with duplicate keys the later definition wins), `undefined` on
non-objects.  Access on `null` throws in JS; inside `parseQRCode` that
throw is caught by the enclosing `catch` which falls through exactly like
the `undefined` case, so `none` is the faithful observable model there. -/
def getField (v : Json) (key : List Char) : Option Json :=
  match v with
  | Json.obj fields => (fields.reverse.find? (fun p => p.1 == key)).map (·.2)
  | _ => none

/-- `QRScanResult` from src/utils/scanner.ts.  `userId` is an `Option Json`
because the JS value assigned in the JSON branch is whatever the parsed
field holds (the TS annotation `string` is not checked at runtime); the
prefix and fallback branches assign a string (`Json.str`). -/
structure QRScanResult where
  text : List Char
  userId : Option Json
  isValid : Bool
  error : Option (List Char)

/-- `pat.isPrefixOf s` for char lists, written out so the development does
not depend on library prefix predicates. -/
def startsWithChars : List Char → List Char → Bool
  | [], _ => true
  | _ :: _, [] => false
  | p :: ps, c :: cs => p == c && startsWithChars ps cs

/-- JS `String.prototype.replace` with a string pattern: replaces the
first occurrence only. -/
def replaceFirst (pat repl : List Char) : List Char → List Char
  | [] => if pat.isEmpty then repl else []
  | c :: rest =>
    if startsWithChars pat (c :: rest) then repl ++ (c :: rest).drop pat.length
    else c :: replaceFirst pat repl rest

/-- The QR identifier tag `SWACHH_USER_`. -/
def swachhTag : List Char := "SWACHH_USER_".data

/-- The JSON branch and the generic fallback of `parseQRCode`
(src/utils/scanner.ts lines 40-59): try `JSON.parse`; on success return
`parsed.userId || parsed.user_id` when that is truthy, otherwise fall
through to the fallback that accepts the whole text as the identifier. -/
def parseQRCodeJsonStep (qrText : List Char) : QRScanResult :=
  match jsonParse qrText with
  | some parsed =>
    let a := getField parsed "userId".data
    let b := getField parsed "user_id".data
    if truthy a then ⟨qrText, a, true, none⟩
    else if truthy b then ⟨qrText, b, true, none⟩
    else ⟨qrText, some (Json.str qrText), true, none⟩
  | none => ⟨qrText, some (Json.str qrText), true, none⟩

/-- `parseQRCode` from src/utils/scanner.ts lines 26-67.  The outer
`try`/`catch` (whose `catch` would return `isValid = false` with
`error = "Invalid QR code format"`) has no throwing operation left in its
body - `JSON.parse` and the property accesses sit inside the inner
`try`/`catch` - so the body is total and the function is the composition
of the three return paths. -/
def parseQRCode (qrText : List Char) : QRScanResult :=
  if startsWithChars swachhTag qrText then
    let userId := replaceFirst swachhTag [] qrText
    if userId.length > 0 then ⟨qrText, some (Json.str userId), true, none⟩
    else parseQRCodeJsonStep qrText
  else parseQRCodeJsonStep qrText

/-- `WasteType` from src/utils/api.ts. -/
inductive WasteType where
  | Dry | Wet | Recyclable | Other
deriving DecidableEq, Repr

/-- `CollectionLog` from src/utils/api.ts.  Coordinates are carried
opaquely by the store (no arithmetic), modelled as rationals. -/
structure CollectionLog where
  id : Option (List Char)
  collector_id : List Char
  user_id : List Char
  waste_type : WasteType
  timestamp : List Char
  latitude : ℚ
  longitude : ℚ
  notes : Option (List Char)
deriving DecidableEq, Repr

/-- `IllegalDumpingReport.status` from src/utils/api.ts. -/
inductive ReportStatus where
  | Pending | Verified | Rejected
deriving DecidableEq, Repr

/-- `IllegalDumpingReport` from src/utils/api.ts. -/
structure IllegalDumpingReport where
  id : Option (List Char)
  collector_id : List Char
  photo_url : Option (List Char)
  photo_base64 : Option (List Char)
  description : Option (List Char)
  timestamp : List Char
  latitude : ℚ
  longitude : ℚ
  status : ReportStatus
deriving DecidableEq, Repr

/-- `Collector` from src/utils/api.ts. -/
structure Collector where
  id : List Char
  name : List Char
  phone : Option (List Char)
  area : Option (List Char)
  is_active : Bool
deriving DecidableEq, Repr

/-- `ScanHistory` from src/utils/scanner.ts. -/
structure ScanHistory where
  id : List Char
  userId : List Char
  timestamp : List Char
  location : Option (ℚ × ℚ)
  synced : Bool
deriving DecidableEq, Repr

/-- The browser `localStorage`, restricted to the four keys the app uses:
`collection_logs`, `dumping_reports`, `current_collector` (a singleton,
absent after `removeItem`) and `scan_history`. -/
structure StorageState where
  collection_logs : List CollectionLog
  dumping_reports : List IllegalDumpingReport
  current_collector : Option Collector
  scan_history : List ScanHistory
deriving DecidableEq, Repr

/-- The id-less input record of `addCollectionLog` / `logCollection`
(`Omit<CollectionLog, 'id'>`). -/
structure CollectionLogData where
  collector_id : List Char
  user_id : List Char
  waste_type : WasteType
  timestamp : List Char
  latitude : ℚ
  longitude : ℚ
  notes : Option (List Char)
deriving DecidableEq, Repr

/-- `{...log, id: 'log_...'}`: the input record extended with the
generated id. -/
def CollectionLogData.withId (d : CollectionLogData) (newId : List Char) : CollectionLog :=
  ⟨some newId, d.collector_id, d.user_id, d.waste_type, d.timestamp,
   d.latitude, d.longitude, d.notes⟩

namespace LocalStorage

/-- `LocalStorage.getCollectionLogs`. -/
def getCollectionLogs (st : StorageState) : List CollectionLog :=
  st.collection_logs

/-- `LocalStorage.addCollectionLog`.  The generated id
`log_${Date.now()}_${random}` is nondeterministic in the source, so it is
taken as the argument `newId`; the record is appended and the new state
saved. -/
def addCollectionLog (st : StorageState) (log : CollectionLogData)
    (newId : List Char) : CollectionLog × StorageState :=
  let newLog := log.withId newId
  (newLog, { st with collection_logs := st.collection_logs ++ [newLog] })

/-- `LocalStorage.getCurrentCollector`. -/
def getCurrentCollector (st : StorageState) : Option Collector :=
  st.current_collector

/-- `LocalStorage.setCurrentCollector`. -/
def setCurrentCollector (st : StorageState) (c : Collector) : StorageState :=
  { st with current_collector := some c }

/-- `LocalStorage.clearCurrentCollector`:
`localStorage.removeItem('current_collector')`. -/
def clearCurrentCollector (st : StorageState) : StorageState :=
  { st with current_collector := none }

end LocalStorage

namespace CollectorAPI

/-- `CollectorAPI.logout`. -/
def logout (st : StorageState) : StorageState :=
  LocalStorage.clearCurrentCollector st

/-- `CollectorAPI.getCurrentCollector`. -/
def getCurrentCollector (st : StorageState) : Option Collector :=
  LocalStorage.getCurrentCollector st

/-- `CollectorAPI.logCollection` (the Promise wrapper adds nothing in this
single-threaded model). -/
def logCollection (st : StorageState) (data : CollectionLogData)
    (newId : List Char) : CollectionLog × StorageState :=
  LocalStorage.addCollectionLog st data newId

/-- `CollectorAPI.getCollectionLogs(collectorId?)`: the filter is applied
only when `collectorId` is truthy (`undefined` and the empty string both
select the unfiltered list). -/
def getCollectionLogs (st : StorageState) (collectorId : Option (List Char)) :
    List CollectionLog :=
  match collectorId with
  | some cid =>
    if cid.isEmpty then LocalStorage.getCollectionLogs st
    else (LocalStorage.getCollectionLogs st).filter (fun l => l.collector_id == cid)
  | none => LocalStorage.getCollectionLogs st

end CollectorAPI

namespace ScanHistoryManager

/-- `ScanHistoryManager.getHistory`. -/
def getHistory (st : StorageState) : List ScanHistory :=
  st.scan_history

/-- `ScanHistoryManager.getUnsyncedScans`: filter to `synced = false`. -/
def getUnsyncedScans (st : StorageState) : List ScanHistory :=
  (getHistory st).filter (fun scan => !scan.synced)

/-- `history.find(s => s.id === scanId)` followed by `scan.synced = true`:
the first record with the given id is flipped in place. -/
def markFirstSynced (scanId : List Char) : List ScanHistory → List ScanHistory
  | [] => []
  | s :: rest =>
    if s.id == scanId then { s with synced := true } :: rest
    else s :: markFirstSynced scanId rest

/-- `ScanHistoryManager.markAsSynced`.  When no record matches, `find`
returns `undefined` and nothing is saved; the stored list is unchanged in
that case, which `markFirstSynced` also models. -/
def markAsSynced (st : StorageState) (scanId : List Char) : StorageState :=
  { st with scan_history := markFirstSynced scanId st.scan_history }

/-- `ScanHistoryManager.clearSyncedScans`: keep only `synced = false`. -/
def clearSyncedScans (st : StorageState) : StorageState :=
  { st with scan_history := st.scan_history.filter (fun scan => !scan.synced) }

end ScanHistoryManager

/-- `Math.atan2(y, x)` over the idealised reals (the JS signed zeros
collapse to the single real `0`, for which `atan2 0 0 = 0` as for `+0`). -/
noncomputable def atan2 (y x : ℝ) : ℝ :=
  if 0 < x then Real.arctan (y / x)
  else if x < 0 then
    (if 0 ≤ y then Real.arctan (y / x) + Real.pi else Real.arctan (y / x) - Real.pi)
  else if 0 < y then Real.pi / 2
  else if y < 0 then -(Real.pi / 2)
  else 0

/-- `toRadian` from src/utils/location.ts. -/
noncomputable def toRadian (degree : ℝ) : ℝ :=
  degree * (Real.pi / 180)

/-- `calculateDistance` from src/utils/location.ts, with JS doubles
idealised as reals: haversine distance with Earth radius 6371 km. -/
noncomputable def calculateDistance (lat1 lng1 lat2 lng2 : ℝ) : ℝ :=
  let R : ℝ := 6371
  let dLat := toRadian (lat2 - lat1)
  let dLng := toRadian (lng2 - lng1)
  let a := Real.sin (dLat / 2) * Real.sin (dLat / 2) +
    Real.cos (toRadian lat1) * Real.cos (toRadian lat2) *
    Real.sin (dLng / 2) * Real.sin (dLng / 2)
  let c := 2 * atan2 (Real.sqrt a) (Real.sqrt (1 - a))
  R * c

/-! ### Helper lemmas -/

lemma replaceFirst_of_startsWith (pat repl s : List Char)
    (h : startsWithChars pat s = true) :
    replaceFirst pat repl s = repl ++ s.drop pat.length := by
  cases s with
  | nil =>
    cases pat with
    | nil => simp [replaceFirst]
    | cons p ps => simp [startsWithChars] at h
  | cons c rest => simp [replaceFirst, h]

lemma parseQRCodeJsonStep_valid (s : List Char) :
    (parseQRCodeJsonStep s).isValid = true ∧ (parseQRCodeJsonStep s).error = none := by
  unfold parseQRCodeJsonStep
  cases jsonParse s with
  | none => exact ⟨rfl, rfl⟩
  | some j =>
    dsimp only
    split
    · exact ⟨rfl, rfl⟩
    · split
      · exact ⟨rfl, rfl⟩
      · exact ⟨rfl, rfl⟩

/-! ### Theorems about the QR decoder -/

/-- C4: `parseQRCode` is total and never reaches its outer catch: every
result has `isValid = true` (and hence no `'Invalid QR code format'`
error is ever produced). -/
theorem parseQRCode_total_valid (s : List Char) :
    (parseQRCode s).isValid = true ∧ (parseQRCode s).error = none := by
  unfold parseQRCode
  split
  · dsimp only
    split
    · exact ⟨rfl, rfl⟩
    · exact parseQRCodeJsonStep_valid s
  · exact parseQRCodeJsonStep_valid s

/-- C10: on the exact input `SWACHH_USER_` (tag with empty identifier) the
tag branch is skipped and the fallback accepts the whole text:
`isValid = true`, `userId` = the whole input. -/
theorem parseQRCode_emptyId_fallback :
    parseQRCode "SWACHH_USER_".data =
      ⟨"SWACHH_USER_".data, some (Json.str "SWACHH_USER_".data), true, none⟩ := rfl

/-- C3: on `SWACHH_USER_<id>` with non-empty `<id>` the decoder returns
`isValid = true` and `userId = <id>` (the input with the first occurrence
of the 12-character tag removed). -/
theorem parseQRCode_tagged (s : List Char)
    (hpre : startsWithChars swachhTag s = true)
    (hid : s.drop 12 ≠ []) :
    parseQRCode s = ⟨s, some (Json.str (s.drop 12)), true, none⟩ := by
  have hrep := replaceFirst_of_startsWith swachhTag [] s hpre
  have hlen : swachhTag.length = 12 := rfl
  rw [hlen] at hrep
  unfold parseQRCode
  rw [hpre]
  simp only [if_true, List.nil_append] at *
  rw [hrep]
  rw [if_pos (by simpa [List.length_pos] using hid)]

/-- C3 witness: the tagged input `SWACHH_USER_abc` decodes to `abc`. -/
theorem parseQRCode_tagged_witness :
    parseQRCode "SWACHH_USER_abc".data =
      ⟨"SWACHH_USER_abc".data, some (Json.str "abc".data), true, none⟩ :=
  parseQRCode_tagged "SWACHH_USER_abc".data (by decide) (by decide)

/-! ### Theorems about the session singleton -/

/-- C7: after `logout()`, `getCurrentCollector()` returns none for every
prior store state. -/
theorem logout_clears_collector (st : StorageState) :
    CollectorAPI.getCurrentCollector (CollectorAPI.logout st) = none := rfl

/-- C9: clearing the current-collector singleton (`clearCurrentCollector`,
and `logout` which calls it) leaves the collection-log, dumping-report and
scan-history partitions unchanged. -/
theorem clearCurrentCollector_frame (st : StorageState) :
    (LocalStorage.clearCurrentCollector st).collection_logs = st.collection_logs ∧
    (LocalStorage.clearCurrentCollector st).dumping_reports = st.dumping_reports ∧
    (LocalStorage.clearCurrentCollector st).scan_history = st.scan_history ∧
    (CollectorAPI.logout st).collection_logs = st.collection_logs ∧
    (CollectorAPI.logout st).dumping_reports = st.dumping_reports ∧
    (CollectorAPI.logout st).scan_history = st.scan_history :=
  ⟨rfl, rfl, rfl, rfl, rfl, rfl⟩

/-- C1 counterexample: the input `{"userId":""}` parses as JSON and
contains a `userId` field, yet the decoder does not return that field's
value: the empty string is falsy, so the code falls through to the
fallback and returns the whole raw text as `userId`. -/
theorem parseQRCode_json_claim_cex :
    startsWithChars swachhTag "\x7b\"userId\":\"\"\x7d".data = false ∧
    jsonParse "\x7b\"userId\":\"\"\x7d".data =
      some (Json.obj [("userId".data, Json.str [])]) ∧
    (getField (Json.obj [("userId".data, Json.str [])]) "userId".data).isSome = true ∧
    (parseQRCode "\x7b\"userId\":\"\"\x7d".data).userId ≠ some (Json.str []) := by
  refine ⟨rfl, rfl, rfl, ?_⟩
  have h : (parseQRCode "\x7b\"userId\":\"\"\x7d".data).userId =
      some (Json.str "\x7b\"userId\":\"\"\x7d".data) := rfl
  rw [h]
  simp only [ne_eq, Option.some.injEq, Json.str.injEq]
  decide

/-- C1 (amended): for inputs that do not start with the tag and parse as
JSON in which `userId` or `user_id` holds a truthy value, the decoder
returns `isValid = true` and `userId` equal to the `userId` field when that
one is truthy, otherwise the `user_id` field (the JS test and value are
`parsed.userId || parsed.user_id`). -/
theorem parseQRCode_json_truthy (s : List Char) (j : Json)
    (hpre : startsWithChars swachhTag s = false)
    (hj : jsonParse s = some j)
    (ht : truthy (getField j "userId".data) = true ∨
          truthy (getField j "user_id".data) = true) :
    (parseQRCode s).isValid = true ∧
    (parseQRCode s).userId =
      (if truthy (getField j "userId".data) then getField j "userId".data
       else getField j "user_id".data) := by
  have hq : parseQRCode s = parseQRCodeJsonStep s := by simp [parseQRCode, hpre]
  rw [hq]
  unfold parseQRCodeJsonStep
  rw [hj]
  by_cases ha : truthy (getField j "userId".data) = true
  · simp [ha]
  · have hb : truthy (getField j "user_id".data) = true := ht.resolve_left ha
    simp [ha, hb]

/-- C1 witness: `{"userId":"u7"}` decodes to the field value `u7`. -/
theorem parseQRCode_json_truthy_witness :
    (parseQRCode "\x7b\"userId\":\"u7\"\x7d".data).isValid = true ∧
    (parseQRCode "\x7b\"userId\":\"u7\"\x7d".data).userId =
      (if truthy (getField (Json.obj [("userId".data, Json.str "u7".data)]) "userId".data)
       then getField (Json.obj [("userId".data, Json.str "u7".data)]) "userId".data
       else getField (Json.obj [("userId".data, Json.str "u7".data)]) "user_id".data) :=
  parseQRCode_json_truthy "\x7b\"userId\":\"u7\"\x7d".data
    (Json.obj [("userId".data, Json.str "u7".data)]) rfl rfl (Or.inl rfl)

/-- C2: a non-empty input that neither starts with the tag nor parses as
JSON with a `userId`/`user_id` field is accepted as-is: `isValid = true`
and `userId` equal to the whole raw text. -/
theorem parseQRCode_raw_fallback (s : List Char)
    (_hne : s ≠ [])
    (hpre : startsWithChars swachhTag s = false)
    (hjson : ∀ j, jsonParse s = some j →
      getField j "userId".data = none ∧ getField j "user_id".data = none) :
    parseQRCode s = ⟨s, some (Json.str s), true, none⟩ := by
  have hq : parseQRCode s = parseQRCodeJsonStep s := by simp [parseQRCode, hpre]
  rw [hq]
  unfold parseQRCodeJsonStep
  cases hj : jsonParse s with
  | none => rfl
  | some j =>
    obtain ⟨h1, h2⟩ := hjson j hj
    simp [h1, h2, truthy]

/-- C2 witness: the plain text `hello` is returned whole as the
identifier. -/
theorem parseQRCode_raw_fallback_witness :
    parseQRCode "hello".data =
      ⟨"hello".data, some (Json.str "hello".data), true, none⟩ :=
  parseQRCode_raw_fallback "hello".data (by decide) rfl
    (fun j h => by
      rw [show jsonParse "hello".data = none from rfl] at h
      exact Option.noConfusion h)

/-! ### Theorems about the event store -/

lemma count_append_singleton_of_not_mem {α : Type} [DecidableEq α]
    (l : List α) (a : α) (h : a ∉ l) : (l ++ [a]).count a = 1 := by
  simp [List.count_append, List.count_eq_zero_of_not_mem h]

lemma count_filter_of_pos {α : Type} [DecidableEq α]
    (p : α → Bool) (l : List α) (a : α) (hp : p a = true) :
    (l.filter p).count a = l.count a := by
  induction l with
  | nil => rfl
  | cons x xs ih =>
    by_cases hx : x = a
    · subst hx
      simp [List.filter_cons, hp, List.count_cons, ih]
    · rw [List.filter_cons]
      by_cases hpx : p x = true
      · simp [hpx, List.count_cons, hx, ih]
      · simp [hpx, List.count_cons, hx, ih]

/-- C5: `logCollection` returns the input record extended with the
assigned id, persists it, and a subsequent `getCollectionLogs` filtered by
the record's `collector_id` contains exactly that record (once) among its
results.  The generated id is modelled as the argument `newId`;
"freshly assigned" is the hypothesis that no stored log already carries
it. -/
theorem logCollection_then_list (st : StorageState) (data : CollectionLogData)
    (newId : List Char)
    (hfresh : ∀ l ∈ st.collection_logs, l.id ≠ some newId) :
    (CollectorAPI.logCollection st data newId).1 = data.withId newId ∧
    (CollectorAPI.logCollection st data newId).1 ∈
      (CollectorAPI.logCollection st data newId).2.collection_logs ∧
    ((CollectorAPI.getCollectionLogs (CollectorAPI.logCollection st data newId).2
        (some data.collector_id)).count
      (CollectorAPI.logCollection st data newId).1) = 1 := by
  have hnot : data.withId newId ∉ st.collection_logs := fun hm =>
    hfresh _ hm rfl
  refine ⟨rfl, ?_, ?_⟩
  · show data.withId newId ∈ st.collection_logs ++ [data.withId newId]
    simp
  · show (CollectorAPI.getCollectionLogs
        ⟨st.collection_logs ++ [data.withId newId], st.dumping_reports,
         st.current_collector, st.scan_history⟩
        (some data.collector_id)).count (data.withId newId) = 1
    unfold CollectorAPI.getCollectionLogs LocalStorage.getCollectionLogs
    by_cases hempty : data.collector_id.isEmpty = true
    · simp only [hempty, if_true]
      exact count_append_singleton_of_not_mem _ _ hnot
    · simp only [hempty, Bool.false_eq_true, if_false]
      rw [count_filter_of_pos _ _ _ (by simp [CollectionLogData.withId])]
      exact count_append_singleton_of_not_mem _ _ hnot

/-- C5 witness: logging a collection into the empty store and listing by
its collector id yields exactly the new record. -/
theorem logCollection_then_list_witness :
    (CollectorAPI.logCollection ⟨[], [], none, []⟩
        ⟨"c1".data, "u1".data, WasteType.Dry, "t1".data, 0, 0, none⟩
        "log_1".data).1 =
      CollectionLogData.withId
        ⟨"c1".data, "u1".data, WasteType.Dry, "t1".data, 0, 0, none⟩
        "log_1".data ∧
    (CollectorAPI.logCollection ⟨[], [], none, []⟩
        ⟨"c1".data, "u1".data, WasteType.Dry, "t1".data, 0, 0, none⟩
        "log_1".data).1 ∈
      (CollectorAPI.logCollection ⟨[], [], none, []⟩
          ⟨"c1".data, "u1".data, WasteType.Dry, "t1".data, 0, 0, none⟩
          "log_1".data).2.collection_logs ∧
    ((CollectorAPI.getCollectionLogs
        (CollectorAPI.logCollection ⟨[], [], none, []⟩
            ⟨"c1".data, "u1".data, WasteType.Dry, "t1".data, 0, 0, none⟩
            "log_1".data).2
        (some "c1".data)).count
      (CollectorAPI.logCollection ⟨[], [], none, []⟩
          ⟨"c1".data, "u1".data, WasteType.Dry, "t1".data, 0, 0, none⟩
          "log_1".data).1) = 1 :=
  logCollection_then_list ⟨[], [], none, []⟩
    ⟨"c1".data, "u1".data, WasteType.Dry, "t1".data, 0, 0, none⟩
    "log_1".data (by simp)

/-! ### Theorems about the scan-history cache -/

lemma not_mem_unsynced_markFirst (e : ScanHistory) :
    ∀ h : List ScanHistory, e ∈ h →
      List.countP (fun s => s.id == e.id) h = 1 →
      e ∉ (ScanHistoryManager.markFirstSynced e.id h).filter (fun s => !s.synced) := by
  intro h
  induction h with
  | nil => intro hmem _ _; simp at hmem
  | cons x xs ih =>
    intro hmem hcount hfil
    rw [List.countP_cons] at hcount
    unfold ScanHistoryManager.markFirstSynced at hfil
    by_cases hx : (x.id == e.id) = true
    · rw [if_pos hx] at hfil
      have h0 : List.countP (fun s => s.id == e.id) xs = 0 := by
        simp only [hx, if_true] at hcount
        omega
      rw [List.mem_filter] at hfil
      obtain ⟨hmem', hsync⟩ := hfil
      rcases List.mem_cons.mp hmem' with heq | hmem2
      · rw [heq] at hsync
        simp at hsync
      · have := List.countP_eq_zero.mp h0 e hmem2
        simp at this
    · rw [if_neg hx] at hfil
      rw [List.mem_filter] at hfil
      obtain ⟨hmem', hsync⟩ := hfil
      rcases List.mem_cons.mp hmem' with heq | hmem2
      · exact hx (by rw [heq]; simp)
      · have hexs : e ∈ xs := by
          rcases List.mem_cons.mp hmem with h1 | h2
          · exact absurd (by rw [h1]; simp) hx
          · exact h2
        have hc : List.countP (fun s => s.id == e.id) xs = 1 := by
          simpa [hx] using hcount
        exact ih hexs hc (List.mem_filter.mpr ⟨hmem2, hsync⟩)

/-- C6 counterexample: in a store whose scan history holds two identical
entries (the generated ids are only best-effort unique), `markAsSynced`
flips only the first match, so the entry is still present among the
unsynced scans afterwards, contradicting the claim as stated. -/
theorem markAsSynced_claim_cex :
    (⟨"s1".data, "u".data, "t".data, none, false⟩ : ScanHistory) ∈
      (⟨[], [], none,
        [⟨"s1".data, "u".data, "t".data, none, false⟩,
         ⟨"s1".data, "u".data, "t".data, none, false⟩]⟩ : StorageState).scan_history ∧
    (⟨"s1".data, "u".data, "t".data, none, false⟩ : ScanHistory) ∈
      ScanHistoryManager.getUnsyncedScans
        (ScanHistoryManager.markAsSynced
          ⟨[], [], none,
           [⟨"s1".data, "u".data, "t".data, none, false⟩,
            ⟨"s1".data, "u".data, "t".data, none, false⟩]⟩
          "s1".data) := by
  constructor
  · simp
  · decide

/-- C6 (amended): for a store whose scan history contains `e` and holds no
other entry with `e`'s id, after `markAsSynced(e.id)` the entry is absent
from `getUnsyncedScans()`, and after a further `clearSyncedScans()` it is
absent from `getHistory()`. -/
theorem markAsSynced_then_clear (st : StorageState) (e : ScanHistory)
    (hmem : e ∈ st.scan_history)
    (huniq : List.countP (fun s => s.id == e.id) st.scan_history = 1) :
    e ∉ ScanHistoryManager.getUnsyncedScans (ScanHistoryManager.markAsSynced st e.id) ∧
    e ∉ ScanHistoryManager.getHistory
        (ScanHistoryManager.clearSyncedScans (ScanHistoryManager.markAsSynced st e.id)) := by
  have key := not_mem_unsynced_markFirst e st.scan_history hmem huniq
  exact ⟨key, key⟩

/-- C6 witness: a store with the single unsynced entry `s1`, which is gone
from the unsynced list and then from the history. -/
theorem markAsSynced_then_clear_witness :
    (⟨"s1".data, "u".data, "t".data, none, false⟩ : ScanHistory) ∉
      ScanHistoryManager.getUnsyncedScans
        (ScanHistoryManager.markAsSynced
          ⟨[], [], none, [⟨"s1".data, "u".data, "t".data, none, false⟩]⟩
          (⟨"s1".data, "u".data, "t".data, none, false⟩ : ScanHistory).id) ∧
    (⟨"s1".data, "u".data, "t".data, none, false⟩ : ScanHistory) ∉
      ScanHistoryManager.getHistory
        (ScanHistoryManager.clearSyncedScans
          (ScanHistoryManager.markAsSynced
            ⟨[], [], none, [⟨"s1".data, "u".data, "t".data, none, false⟩]⟩
            (⟨"s1".data, "u".data, "t".data, none, false⟩ : ScanHistory).id)) :=
  markAsSynced_then_clear
    ⟨[], [], none, [⟨"s1".data, "u".data, "t".data, none, false⟩]⟩
    ⟨"s1".data, "u".data, "t".data, none, false⟩
    (by simp) (by decide)

/-! ### Theorems about the distance helper -/

/-- C8: `calculateDistance` (idealised over the reals) is symmetric in its
two coordinate pairs, and the distance from the origin to itself is 0. -/
theorem calculateDistance_symm_zero :
    (∀ lat1 lng1 lat2 lng2 : ℝ,
      calculateDistance lat1 lng1 lat2 lng2 = calculateDistance lat2 lng2 lat1 lng1) ∧
    calculateDistance 0 0 0 0 = 0 := by
  constructor
  · intro lat1 lng1 lat2 lng2
    have ha : Real.sin (toRadian (lat1 - lat2) / 2) * Real.sin (toRadian (lat1 - lat2) / 2) +
        Real.cos (toRadian lat2) * Real.cos (toRadian lat1) *
          Real.sin (toRadian (lng1 - lng2) / 2) * Real.sin (toRadian (lng1 - lng2) / 2) =
        Real.sin (toRadian (lat2 - lat1) / 2) * Real.sin (toRadian (lat2 - lat1) / 2) +
        Real.cos (toRadian lat1) * Real.cos (toRadian lat2) *
          Real.sin (toRadian (lng2 - lng1) / 2) * Real.sin (toRadian (lng2 - lng1) / 2) := by
      have h1 : toRadian (lat1 - lat2) = -toRadian (lat2 - lat1) := by unfold toRadian; ring
      have h2 : toRadian (lng1 - lng2) = -toRadian (lng2 - lng1) := by unfold toRadian; ring
      simp only [h1, h2, neg_div, Real.sin_neg]
      ring
    simp only [calculateDistance]
    rw [ha]
  · simp only [calculateDistance, toRadian]
    norm_num [atan2]
